import Mathlib

/-
Verification of the razulibs package-integrity core (SIP builder):
a shallow embedding of src/razu/events.py, src/razu/manifest.py,
src/razu/sip.py, src/razu/util.py and src/razu/razuconfig.py,
together with theorems settling the stated properties of the spec.

Filesystem state is made explicit (a directory is a flat list of
named files; the md5 function is a parameter standing for
util.calculate_md5); exceptions are modelled with Except.
-/

namespace Razu

/-- PREMIS event types appended by RazuEvents (src/razu/events.py):
fil = filename_change, fix = fixity_check, frm = format_identification,
ins = ingestion_start, ine = ingestion_end, mes = message_digest_calculation,
mem = metadata_modification, vir = virus_check. -/
inductive EType
  | fil | fix | frm | ins | ine | mes | mem | vir
deriving DecidableEq, Repr

/-- One preservation event of the log. The source stores events as RDF
resources in a graph; the fields the core logic inspects are the numeric
id embedded in the event URI (Events._next_uri) and the PREMIS eventType. -/
structure Event where
  id : Nat
  etype : EType
deriving DecidableEq, Repr

/-- Errors raised by the embedded code paths. locked stands for the
AssertionError raised when the package is locked; keyError for the
KeyError of Manifest.update_entry; filesMissing / extraFiles for the
FileNotFoundError / FileExistsError of Manifest.validate. -/
inductive RazuError
  | locked
  | keyError (filename : String)
  | filesMissing (files : List String)
  | extraFiles (files : List String)
deriving DecidableEq, Repr

/-! ### Deferred event queue (Events.to_queue / Events.process_queue) -/

/-- A positional argument passed to Events.to_queue: either a plain value
or a zero-argument callable (modelled by an index into an environment
that supplies its value at process_queue time). -/
inductive PyVal
  | plain (n : Int)
  | closure (cid : Nat)
deriving DecidableEq, Repr

/-- Python callable(arg) for the argument values of to_queue. -/
def PyVal.callable : PyVal → Bool
  | .plain _ => false
  | .closure _ => true

/-- What Events.to_queue stores for one positional argument:
stored v is a callable argument kept as-is; lateLambda v is the
wrapper produced for a non-callable argument. All such wrappers
close over the single comprehension variable of
`[arg if callable(arg) else lambda: arg for arg in args]`, so when
invoked each returns v = the last element of args (its value once the
comprehension finished). -/
inductive DeferredArg
  | stored (v : PyVal)
  | lateLambda (v : PyVal)
deriving DecidableEq, Repr

/-- One queued deferred call: the event method name and its deferred
positional arguments (keyword arguments behave identically and are not
modelled separately). -/
structure QueuedCall where
  event : String
  args : List DeferredArg
deriving DecidableEq, Repr

/-- Events.to_queue (src/razu/events.py:48-53): appends a deferred call.
Each callable argument is stored as-is; each non-callable argument is
wrapped in `lambda: arg`, and all those lambdas share the comprehension
variable, which after the comprehension holds the last element of args
(exactly the Python late-binding behaviour of the source line
`deferred_args = [arg if callable(arg) else lambda: arg for arg in args]`).
The getLastD default is never reached: a lateLambda is only built when
args is non-empty. -/
def to_queue (queue : List QueuedCall) (event : String) (args : List PyVal) : List QueuedCall :=
  let deferred := args.map (fun a =>
    if a.callable then DeferredArg.stored a
    else DeferredArg.lateLambda (args.getLastD (PyVal.plain 0)))
  queue ++ [⟨event, deferred⟩]

/-- A value as it reaches the event method when the queue is processed:
either a number or a closure object that was passed through uncalled. -/
inductive RVal
  | num (n : Int)
  | closureObj (cid : Nat)
deriving DecidableEq, Repr

/-- Resolution of one deferred argument in Events.process_queue
(`resolved_args = [arg() if callable(arg) else arg for arg in args]`):
a stored callable is called (yielding its process-time value from env);
a lateLambda is callable too, so it is called and returns the shared
variable's value v, which is passed on as-is (a closure object is not
called a second time). -/
def resolveDeferred (env : Nat → Int) : DeferredArg → RVal
  | .stored v =>
      match v with
      | .closure cid => RVal.num (env cid)
      | .plain n => RVal.num n
  | .lateLambda v =>
      match v with
      | .plain n => RVal.num n
      | .closure cid => RVal.closureObj cid

/-- Events.process_queue (src/razu/events.py:55-63): resolves and applies
every queued call in order, then clears the queue. The result lists the
invocations made (event name with its resolved arguments) together with
the queue left behind. -/
def process_queue (env : Nat → Int) (queue : List QueuedCall) :
    List (String × List RVal) × List QueuedCall :=
  (queue.map (fun c => (c.event, c.args.map (resolveDeferred env))), [])

/-- Modelled from the spec: the intended resolution of one enqueue-time
argument, "arguments may be zero-argument closures, evaluated only at
processQueue() time" — a plain argument keeps the value supplied at
enqueue time, a closure yields its process-time value. -/
def specResolveArg (env : Nat → Int) : PyVal → RVal
  | .plain n => RVal.num n
  | .closure cid => RVal.num (env cid)

/-! ### Event log (class Events / RazuEvents, src/razu/events.py) -/

/-- In-memory state of the Events object: the parsed event graph, the
running event-id counter, the dirty flag and the deferred queue. -/
structure Events where
  graph : List Event
  current_id : Nat
  is_modified : Bool
  queue : List QueuedCall
deriving DecidableEq, Repr

/-- Whether the log is locked. In src/razu/events.py this is assigned once
in Events.__init__ by scanning the loaded graph for an ingestion_end
(eventType ine) record. The Sip object actually uses
RazuPreservationEvents from razu/preservation_events.py, which is not
under src/. Modelled from the spec: razu/preservation_events.py is
missing; per spec 4.3 and 9, isLocked "is computed by scanning events
for any ingestion_end" each time it is queried, so it is embedded here
as the derived predicate. For a log as loaded from file with nothing
appended since, this coincides with the attribute set in
Events.__init__. -/
def Events.is_locked (s : Events) : Bool :=
  s.graph.any (fun e => e.etype == EType.ine)

/-- Maximum event id occurring in a loaded graph (Events.__init__ computes
current_id as the max of the ids extracted from the event URIs, 0 when
none). -/
def maxEventId (evs : List Event) : Nat :=
  evs.foldl (fun m e => max m e.id) 0

/-- Events.__init__ (src/razu/events.py:22-46): loads the eventlog file if
it exists (fileContent = some evs), otherwise starts empty; the queue is
empty and the state is clean either way. -/
def Events.init (fileContent : Option (List Event)) : Events :=
  match fileContent with
  | none => { graph := [], current_id := 0, is_modified := false, queue := [] }
  | some evs => { graph := evs, current_id := maxEventId evs, is_modified := false, queue := [] }

/-- Events._add (src/razu/events.py:76-95): raises when the log is locked,
otherwise appends a fresh event (its id allocated by _next_uri, which
increments current_id) and marks the log modified. -/
def Events.add (s : Events) (t : EType) : Except RazuError Events :=
  if Events.is_locked s then .error RazuError.locked
  else .ok { s with
    graph := s.graph ++ [⟨s.current_id + 1, t⟩],
    current_id := s.current_id + 1,
    is_modified := true }

/-- RazuEvents.ingestion_end (src/razu/events.py:138-145). -/
def Events.ingestion_end (s : Events) : Except RazuError Events :=
  Events.add s EType.ine

/-- RazuEvents.metadata_modification (src/razu/events.py:165-173). -/
def Events.metadata_modification (s : Events) : Except RazuError Events :=
  Events.add s EType.mem

/-- RazuEvents.filename_change (src/razu/events.py:112-119). -/
def Events.filename_change (s : Events) : Except RazuError Events :=
  Events.add s EType.fil

/-- Events.save (src/razu/events.py:65-74): raises when locked (before the
dirty check), otherwise writes the file only when modified and clears
the flag. The Bool of the result records whether a file write happened. -/
def Events.save (s : Events) : Except RazuError (Events × Bool) :=
  if Events.is_locked s then .error RazuError.locked
  else if s.is_modified then .ok ({ s with is_modified := false }, true)
  else .ok (s, false)


/-! ### Manifest (src/razu/manifest.py) -/

/-- Python-dict update of a string map kept as an insertion-ordered
association list with unique keys: an existing key is overwritten in
place, a new key is appended. -/
def dictInsert (m : List (String × String)) (k v : String) : List (String × String) :=
  if m.any (fun p => p.1 == k) then
    m.map (fun p => if p.1 == k then (k, v) else p)
  else m ++ [(k, v)]

/-- dict.update(kwargs): inserts every pair of kvs in order. -/
def dictUpdate (m : List (String × String)) (kvs : List (String × String)) : List (String × String) :=
  kvs.foldl (fun acc p => dictInsert acc p.1 p.2) m

/-- Lookup in the string map (first matching key, Python dict access). -/
def dictGet (m : List (String × String)) (k : String) : Option String :=
  match m with
  | [] => none
  | p :: m2 => if p.1 == k then some p.2 else dictGet m2 k

/-- ManifestEntry (src/razu/manifest.py:12-26): filename key, checksum
information and the open metadata map for extra fields. -/
structure ManifestEntry where
  filename : String
  md5hash : Option String
  md5date : Option String
  metadata : List (String × String)
deriving DecidableEq, Repr

/-- Keyword arguments of ManifestEntry.update / Manifest.update_entry:
optional new checksum fields plus the remaining metadata pairs. -/
structure UpdateKwargs where
  md5hash : Option String
  md5date : Option String
  metadata : List (String × String)
deriving DecidableEq, Repr

/-- ManifestEntry.update (src/razu/manifest.py:21-26): pops md5hash and
md5date when supplied, then merges the remaining kwargs into the
metadata map with dict.update. -/
def ManifestEntry.applyUpdate (e : ManifestEntry) (kw : UpdateKwargs) : ManifestEntry :=
  { e with
    md5hash := match kw.md5hash with | some h => some h | none => e.md5hash,
    md5date := match kw.md5date with | some d => some d | none => e.md5date,
    metadata := dictUpdate e.metadata kw.metadata }

/-- Manifest state (src/razu/manifest.py:73-96): the entries dict (kept as
an insertion-ordered list keyed by filename), the dirty flag and the
is_valid flag. The save_directory and filename handling are carried by
the callers in this embedding. -/
structure Manifest where
  entries : List ManifestEntry
  is_modified : Bool
  is_valid : Bool
deriving DecidableEq, Repr

/-- Manifest.create_new (src/razu/manifest.py:97-105): empty entries, not
yet valid. -/
def Manifest.create_new : Manifest :=
  { entries := [], is_modified := false, is_valid := false }

/-- Python dict assignment entries[filename] = entry: replace in place when
the key exists, append otherwise. -/
def Manifest.set_entry (m : Manifest) (e : ManifestEntry) : Manifest :=
  if m.entries.any (fun x => x.filename == e.filename) then
    { m with entries := m.entries.map (fun x => if x.filename == e.filename then e else x) }
  else { m with entries := m.entries ++ [e] }

/-- Manifest.add_entry (src/razu/manifest.py:126-131). -/
def Manifest.add_entry (m : Manifest) (filename : String) (kw : UpdateKwargs) : Manifest :=
  let m2 := Manifest.set_entry m ⟨filename, kw.md5hash, kw.md5date, kw.metadata⟩
  { m2 with is_modified := true }

/-- The dict lookup entries[filename] (first entry carrying the
filename). -/
def findEntry (l : List ManifestEntry) (filename : String) : Option ManifestEntry :=
  match l with
  | [] => none
  | e :: l2 => if e.filename == filename then some e else findEntry l2 filename

/-- Manifest.update_entry (src/razu/manifest.py:147-152): KeyError when the
filename has no entry, otherwise the entry is updated in place and the
manifest marked modified. -/
def Manifest.update_entry (m : Manifest) (filename : String) (kw : UpdateKwargs) :
    Except RazuError Manifest :=
  if (findEntry m.entries filename).isNone then
    .error (RazuError.keyError filename)
  else
    .ok { m with
      entries := m.entries.map (fun e =>
        if e.filename == filename then ManifestEntry.applyUpdate e kw else e),
      is_modified := true }

/-- Manifest.save (src/razu/manifest.py:162-171): writes the JSON file only
when modified, then clears the flag. The Bool records whether a write
happened. -/
def Manifest.save (m : Manifest) : Manifest × Bool :=
  if m.is_modified then ({ m with is_modified := false }, true) else (m, false)

/-- One file of the package directory: its name relative to the directory
and its byte content. The directory is modelled flat, matching the walk
of a single-level SIP directory where os.path.relpath equals the plain
filename. -/
structure SipFile where
  name : String
  content : String
deriving DecidableEq, Repr

/-- The validation report dict of Manifest.validate, with keys
missing_files, checksum_mismatch and extra_files. -/
structure ValidationReport where
  missing_files : List String
  checksum_mismatch : List String
  extra_files : List String
deriving DecidableEq, Repr

/-- Existence and content lookup for a file of the modelled directory
(os.path.exists plus the read that util.calculate_md5 performs). -/
def findFile (files : List SipFile) (name : String) : Option SipFile :=
  match files with
  | [] => none
  | f :: fs => if f.name == name then some f else findFile fs name

/-- Python membership test name in names. -/
def containsStr (names : List String) (x : String) : Bool :=
  match names with
  | [] => false
  | a :: l => (a == x) || containsStr l x

/-- First loop of Manifest.validate (src/razu/manifest.py:203-210), missing
half: manifest entries whose file does not exist in the directory. -/
def Manifest.missing_list (dirFiles : List SipFile) (m : Manifest) : List String :=
  (m.entries.filter (fun e => (findFile dirFiles e.filename).isNone)).map
    (fun e => e.filename)

/-- First loop of Manifest.validate, mismatch half: entries whose file
exists but whose freshly computed md5 differs from the recorded hash
(a recorded hash of None also counts as a mismatch, as in the source
comparison current_md5 != entry.md5hash). -/
def Manifest.mismatch_list (md5 : String → String) (dirFiles : List SipFile) (m : Manifest) :
    List String :=
  m.entries.filterMap (fun e =>
    match findFile dirFiles e.filename with
    | none => none
    | some f => if (some (md5 f.content) != e.md5hash) then some e.filename else none)

/-- Second loop of Manifest.validate (src/razu/manifest.py:213-220):
directory files whose basename is not ignored and that have no manifest
entry. -/
def Manifest.extra_list (dirFiles : List SipFile) (m : Manifest) (ignore : List String) :
    List String :=
  (dirFiles.filter (fun f =>
    !(containsStr ignore f.name) && (findEntry m.entries f.name).isNone)).map
    (fun f => f.name)

/-- Manifest.validate (src/razu/manifest.py:183-226). manifestBasename is
os.path.basename of the manifest file path, appended to the caller's
ignore list; md5 stands for util.calculate_md5 applied to file content.
The source raises FileNotFoundError when missing_files is non-empty,
then FileExistsError when extra_files is non-empty, and otherwise
returns the report dict (checksum mismatches never raise). -/
def Manifest.validate (md5 : String → String) (dirFiles : List SipFile) (m : Manifest)
    (manifestBasename : String) (ignoreFiles : List String) :
    Except RazuError ValidationReport :=
  let ignore := ignoreFiles ++ [manifestBasename]
  let missing := Manifest.missing_list dirFiles m
  let mismatch := Manifest.mismatch_list md5 dirFiles m
  let extra := Manifest.extra_list dirFiles m ignore
  if missing.isEmpty then
    if extra.isEmpty then .ok ⟨missing, mismatch, extra⟩
    else .error (RazuError.extraFiles extra)
  else .error (RazuError.filesMissing missing)

/-! ### Sip orchestration (src/razu/sip.py) -/

/-- The slice of a StructuredMetaResource that the Sip code paths consult
(src/razu/meta_resource.py is an external collaborator: its save()
result, identifiers, checksum fields and referenced-file fields are
inputs here). save_writes is the boolean returned by resource.save();
md5date stands for the datetime.now() stamp taken when the manifest
entry is built. -/
structure MetaResource where
  id : String
  filename : String
  file_md5 : String
  md5date : String
  uid : String
  metadata_file_uri : String
  description_uri : String
  metadata_sources : List String
  save_writes : Bool
  has_referenced_file : Bool
  referenced_file_filename : String
  referenced_file_md5 : String
  referenced_file_md5date : String
  referenced_file_original_filename : String
  referenced_file_uri : String
  reference_file_fileformat : String
deriving DecidableEq, Repr

/-- ManifestEntry.create_entry_for_metadata_resource
(src/razu/manifest.py:44-55). -/
def ManifestEntry.for_metadata_resource (r : MetaResource) (creatorUri datasetId : String) :
    ManifestEntry :=
  ⟨r.filename, some r.file_md5, some r.md5date,
    [("ObjectUID", r.uid), ("Source", creatorUri), ("Dataset", datasetId),
     ("URI", r.metadata_file_uri)]⟩

/-- ManifestEntry.create_entry_for_referenced_resource
(src/razu/manifest.py:57-70). -/
def ManifestEntry.for_referenced_resource (r : MetaResource) (creatorUri datasetId : String) :
    ManifestEntry :=
  ⟨r.referenced_file_filename, some r.referenced_file_md5, some r.referenced_file_md5date,
    [("ObjectUID", r.uid), ("Source", creatorUri), ("Dataset", datasetId),
     ("FileFormat", r.reference_file_fileformat),
     ("OriginalFilename", r.referenced_file_original_filename),
     ("URI", r.referenced_file_uri)]⟩

/-- Manifest.add_metadata_resource (src/razu/manifest.py:133-138). -/
def Manifest.add_metadata_resource (m : Manifest) (r : MetaResource)
    (creatorUri datasetId : String) : Manifest :=
  let m2 := Manifest.set_entry m (ManifestEntry.for_metadata_resource r creatorUri datasetId)
  { m2 with is_modified := true }

/-- Manifest.add_referenced_resource (src/razu/manifest.py:140-145). -/
def Manifest.add_referenced_resource (m : Manifest) (r : MetaResource)
    (creatorUri datasetId : String) : Manifest :=
  let m2 := Manifest.set_entry m (ManifestEntry.for_referenced_resource r creatorUri datasetId)
  { m2 with is_modified := true }

/-- The Sip aggregate (src/razu/sip.py:59-66): identities resolved at
construction, the resources registered in this session, and the two
index objects. -/
structure Sip where
  archive_creator_uri : String
  archive_id : String
  meta_resources : List String
  manifest : Manifest
  log_event : Events
deriving DecidableEq, Repr

/-- Sip.is_locked (src/razu/sip.py:68-70): delegates to the event log. -/
def Sip.is_locked (s : Sip) : Bool :=
  Events.is_locked s.log_event

/-- State of the SIP directory on disk as consulted by Sip.create_new:
whether it exists, the files it holds, and the parsed content of an
eventlog file when one is present (None when absent). -/
structure DirState where
  dirExists : Bool
  files : List SipFile
  eventlogContent : Option (List Event)
deriving DecidableEq, Repr

/-- Sip.create_new and Sip._create_new_sip (src/razu/sip.py:72-101): the
directory is created with os.makedirs(..., exist_ok=True) — no check of
existence or emptiness anywhere on the path — then a fresh Manifest is
built with Manifest.create_new and the event log object is constructed,
which loads an existing eventlog file when the directory has one
(Events.__init__). The ConceptResolver lookup that produces the creator
URI is an external collaborator and is passed in. -/
def Sip.create_new (d : DirState) (creatorUri archiveId : String) :
    Except RazuError (DirState × Sip) :=
  let d2 := { d with dirExists := true }
  .ok (d2,
    { archive_creator_uri := creatorUri,
      archive_id := archiveId,
      meta_resources := [],
      manifest := Manifest.create_new,
      log_event := Events.init d.eventlogContent })

/-- Sip.create_meta_resource (src/razu/sip.py:120-124): guarded by the
unless_locked decorator (src/razu/decorators.py), which raises before
the method body when is_locked holds; otherwise registers the new
resource. -/
def Sip.create_meta_resource (s : Sip) (id : String) : Except RazuError Sip :=
  if Sip.is_locked s then .error RazuError.locked
  else .ok { s with meta_resources := s.meta_resources ++ [id] }

/-- Folds n metadata_modification appends (the per-source loop of
Sip.store_metadata_resource). -/
def Events.addMemEvents (lg : Events) : Nat → Except RazuError Events
  | 0 => .ok lg
  | n + 1 =>
    match Events.metadata_modification lg with
    | .error e => .error e
    | .ok lg2 => Events.addMemEvents lg2 n

/-- Sip.store_metadata_resource (src/razu/sip.py:126-135): not decorated
with unless_locked. When resource.save() reports a write, the manifest
entry is added and one metadata_modification event is appended per
metadata source (one self-referential event when there are none) — the
event append raises when the log is locked. When resource.save()
returns False the whole call is a no-op. -/
def Sip.store_metadata_resource (s : Sip) (r : MetaResource) : Except RazuError Sip :=
  if r.save_writes then
    let m := Manifest.add_metadata_resource s.manifest r s.archive_creator_uri s.archive_id
    let n := if r.metadata_sources.isEmpty then 1 else r.metadata_sources.length
    match Events.addMemEvents s.log_event n with
    | .error e => .error e
    | .ok lg => .ok { s with manifest := m, log_event := lg }
  else .ok s

/-- Sip.store_referenced_file_if_missing (src/razu/sip.py:137-147): not
decorated with unless_locked. No-op when the resource has no referenced
file or the destination file already exists; otherwise the file is
copied in, the manifest entry added, and a filename_change event
appended (which raises when the log is locked). destinationExists is
the os.path.exists check on the destination path. -/
def Sip.store_referenced_file_if_missing (s : Sip) (r : MetaResource)
    (destinationExists : Bool) : Except RazuError Sip :=
  if !r.has_referenced_file then .ok s
  else if destinationExists then .ok s
  else
    let m := Manifest.add_referenced_resource s.manifest r s.archive_creator_uri s.archive_id
    match Events.filename_change s.log_event with
    | .error e => .error e
    | .ok lg => .ok { s with manifest := m, log_event := lg }

/-- Sip.lock (src/razu/sip.py:163-165): guarded by unless_locked, then
appends the ingestion_end event for all resource URIs. -/
def Sip.lock (s : Sip) : Except RazuError Sip :=
  if Sip.is_locked s then .error RazuError.locked
  else
    match Events.ingestion_end s.log_event with
    | .error e => .error e
    | .ok lg => .ok { s with log_event := lg }

/-! ### The side-effect order of Sip.save (src/razu/sip.py:154-161) -/

/-- One observable step of Sip.save. -/
inductive SaveAction
  | storeResource (id : String)
  | copyReferencedFile (id : String)
  | applyQueuedEvent (i : Nat)
  | writeEventlog
  | writeManifest
deriving DecidableEq, Repr

/-- The order of the side effects performed by Sip.save: first
process_all(store_metadata_resource) over the resources, then — when a
resources directory is configured — process_having_referenced_files
(store_referenced_file_if_missing), then log_event.process_queue(),
then log_event.save(), then manifest.save(), line by line from
src/razu/sip.py:154-161. -/
def sipSaveTrace (resourceIds : List String) (refIds : List String)
    (hasResourcesDir : Bool) (queueLen : Nat) : List SaveAction :=
  (resourceIds.map SaveAction.storeResource)
    ++ (if hasResourcesDir then refIds.map SaveAction.copyReferencedFile else [])
    ++ ((List.range queueLen).map SaveAction.applyQueuedEvent)
    ++ [SaveAction.writeEventlog, SaveAction.writeManifest]

/-- Rank of a save action in the order the source performs them. -/
def SaveAction.rank : SaveAction → Nat
  | .storeResource _ => 0
  | .copyReferencedFile _ => 1
  | .applyQueuedEvent _ => 2
  | .writeEventlog => 3
  | .writeManifest => 4

/-! ### Filename and identifier utilities (src/razu/util.py, src/razu/razuconfig.py) -/

/-- Python str.find for one character restricted to a suffix: index of the
first match in l, None when absent (the source's -1). -/
def pyFindIdx (p : Char → Bool) : List Char → Option Nat
  | [] => none
  | a :: l => if p a then some 0 else (pyFindIdx p l).map (fun i => i + 1)

/-- Python filename.find(c, start): the absolute index of the first
occurrence of c at or after start, None standing for -1. -/
def pyFindChar (s : List Char) (c : Char) (start : Nat) : Option Nat :=
  match pyFindIdx (fun x => x == c) (s.drop start) with
  | some i => some (start + i)
  | none => none

/-- Python filename.find(sub): index of the first occurrence of t as a
substring of s, None standing for -1. -/
def pyFindSub (s t : List Char) : Option Nat :=
  if List.isPrefixOf t s then some 0
  else
    match s with
    | [] => none
    | _ :: s2 => (pyFindSub s2 t).map (fun i => i + 1)
termination_by s.length

/-- Python slice s[start:stop]. -/
def pySlice (s : List Char) (start stop : Nat) : List Char :=
  (s.take stop).drop start

/-- util.extract_part_from_filename (src/razu/util.py:73-107): positions
start after the razu file id and the following separator, skips
partNumber - 1 dash-separated parts via repeated find('-', start) + 1
(error when a find returns -1), then returns the slice up to the next
dash (or to the end when there is none). The dash-skipping loop is
factored out as this helper. -/
def skipDashParts (filename : List Char) (start : Nat) : Nat → Except String Nat
  | 0 => .ok start
  | n + 1 =>
    match pyFindChar filename '-' start with
    | none => .error "part not found in the filename"
    | some j => skipDashParts filename (j + 1) n

/-- util.extract_part_from_filename (src/razu/util.py:73-107), with
razuFileId standing for cfg.razu_file_id. -/
def extract_part_from_filename (razuFileId filename : List Char) (partNumber : Nat) :
    Except String (List Char) :=
  match pyFindSub filename razuFileId with
  | none => .error "razu file ID not found in the filename"
  | some i0 =>
    let start0 := i0 + razuFileId.length + 1
    match skipDashParts filename start0 (partNumber - 1) with
    | .error e => .error e
    | .ok start =>
      match pyFindChar filename '-' start with
      | none => .ok (filename.drop start)
      | some stop => .ok (pySlice filename start stop)

/-- util.filename_without_extensions (src/razu/util.py:109-126): everything
before the first dot. -/
def filename_without_extensions (filename : List Char) : List Char :=
  match pyFindIdx (fun c => c == '.') filename with
  | none => filename
  | some i => filename.take i

/-- RazuConfig.filename_prefix (src/razu/razuconfig.py:26-32): the string
razu_file_id - archive_creator_id - archive_id joined with dashes. -/
def filenamePrefixChars (razuFileId creator archive : List Char) : List Char :=
  razuFileId ++ '-' :: creator ++ '-' :: archive

/-- Modelled from the spec: Identifiers.make_filename_from_id lives in
razu/identifiers.py, which is not under src/ (only its tests and
callers are); per spec 6, a metadata filename is
filePrefix-creatorId-archiveId-objectId.metadataSuffix.ext, built here
from RazuConfig.filename_prefix. -/
def make_filename_from_id (razuFileId creator archive id suffix ext : List Char) : List Char :=
  filenamePrefixChars razuFileId creator archive ++ '-' :: id ++ '.' :: suffix ++ '.' :: ext

/-- Modelled from the spec: Identifiers.extract_id_from_filename lives in
razu/identifiers.py, which is not under src/; per spec 4.1 and the test
suite (src/tests/test_identifiers.py) it recovers the object id — the
third dash-separated part after the file prefix, without the metadata
extensions — composed here from the two src/razu/util.py functions. -/
def extract_id_from_filename (razuFileId filename : List Char) : Except String (List Char) :=
  extract_part_from_filename razuFileId (filename_without_extensions filename) 3

/-- A locked package as it stands after an ingestion_end event: used to
exercise the lock-related operations at a concrete state. -/
def exampleLockedSip : Sip :=
  { archive_creator_uri := "uri",
    archive_id := "661",
    meta_resources := [],
    manifest := Manifest.create_new,
    log_event := { graph := [⟨1, EType.ine⟩], current_id := 1, is_modified := false, queue := [] } }

/-- A resource whose save() reports no pending changes
(resource.save() returns False). -/
def exampleCleanResource : MetaResource :=
  { id := "1", filename := "f.meta.json", file_md5 := "h", md5date := "d", uid := "u",
    metadata_file_uri := "mu", description_uri := "du", metadata_sources := [],
    save_writes := false, has_referenced_file := false, referenced_file_filename := "",
    referenced_file_md5 := "", referenced_file_md5date := "",
    referenced_file_original_filename := "", referenced_file_uri := "",
    reference_file_fileformat := "" }

/-! ## Theorems -/

/-- Claim C3 (code bug exhibit): enqueueing a single call with the two
plain arguments 1 and 2 and processing the queue invokes the handler
with (2, 2) — every non-callable argument resolves to the value of the
last argument, because the deferred lambdas share one comprehension
variable — while the intended resolution of the spec yields the
enqueue-time values (1, 2). The queue is cleared either way. -/
theorem claim_C3_late_binding_bug :
    process_queue (fun _ => 0) (to_queue [] "ingestion_start" [PyVal.plain 1, PyVal.plain 2])
      = ([("ingestion_start", [RVal.num 2, RVal.num 2])], [])
    ∧ [PyVal.plain 1, PyVal.plain 2].map (specResolveArg (fun _ => 0))
      = [RVal.num 1, RVal.num 2] := by
  exact ⟨rfl, rfl⟩

/-- Claim C10: an event log loaded from a file that contains an
ingestion_end event has is_modified = false, yet Events.save raises the
locked error unconditionally — the lock check precedes the dirty check,
so a locked log can never be persisted again. -/
theorem claim_C10_locked_log_save_raises (content : List Event)
    (h : ∃ e ∈ content, e.etype = EType.ine) :
    (Events.init (some content)).is_modified = false
    ∧ Events.save (Events.init (some content)) = .error RazuError.locked := by
  obtain ⟨e, he, ht⟩ := h
  have hlock : Events.is_locked (Events.init (some content)) = true := by
    simp only [Events.is_locked, Events.init, List.any_eq_true]
    exact ⟨e, he, by simp [ht]⟩
  exact ⟨rfl, by simp [Events.save, hlock]⟩

/-- Witness for C10 at a one-event log. -/
theorem claim_C10_witness :
    (Events.init (some [⟨1, EType.ine⟩])).is_modified = false
    ∧ Events.save (Events.init (some [⟨1, EType.ine⟩])) = .error RazuError.locked :=
  claim_C10_locked_log_save_raises [⟨1, EType.ine⟩] ⟨⟨1, EType.ine⟩, by decide, rfl⟩

/-- Claim C5: with the manifest dirty and the event log dirty and
unlocked, the first save writes, the second save performs no write and
leaves the state unchanged — save is idempotent for both index files. -/
theorem claim_C5_idempotent_save (m : Manifest) (lg : Events)
    (hm : m.is_modified = true) (hl : Events.is_locked lg = false)
    (he : lg.is_modified = true) :
    (Manifest.save m).2 = true
    ∧ (Manifest.save (Manifest.save m).1).2 = false
    ∧ (Manifest.save (Manifest.save m).1).1 = (Manifest.save m).1
    ∧ ∃ lg2, Events.save lg = .ok (lg2, true) ∧ Events.save lg2 = .ok (lg2, false) := by
  refine ⟨by simp [Manifest.save, hm], by simp [Manifest.save, hm],
    by simp [Manifest.save, hm], ⟨{ lg with is_modified := false }, ?_, ?_⟩⟩
  · simp [Events.save, hl, he]
  · have hl2 : Events.is_locked { lg with is_modified := false } = false := by
      simpa [Events.is_locked] using hl
    simp [Events.save, hl2]

/-- Witness for C5 at a concrete dirty manifest and dirty unlocked log. -/
theorem claim_C5_witness :
    (Manifest.save ⟨[], true, false⟩).2 = true
    ∧ (Manifest.save (Manifest.save ⟨[], true, false⟩).1).2 = false
    ∧ (Manifest.save (Manifest.save ⟨[], true, false⟩).1).1 = (Manifest.save ⟨[], true, false⟩).1
    ∧ ∃ lg2, Events.save ⟨[⟨1, EType.ins⟩], 1, true, []⟩ = .ok (lg2, true)
        ∧ Events.save lg2 = .ok (lg2, false) :=
  claim_C5_idempotent_save ⟨[], true, false⟩ ⟨[⟨1, EType.ins⟩], 1, true, []⟩ rfl (by decide) rfl

/-- Claim C4 (amended): Sip.create_new performs no emptiness check at all —
for every directory state, also an existing non-empty one, it succeeds,
marks the directory as existing, and yields a Sip with no resources, a
fresh empty not-yet-valid manifest, and an event log initialized from
the directory's existing eventlog file when one is present (fresh and
empty otherwise). -/
theorem claim_C4_create_new_never_fails (d : DirState) (creatorUri archiveId : String) :
    ∃ d2 sip, Sip.create_new d creatorUri archiveId = .ok (d2, sip)
      ∧ d2.dirExists = true
      ∧ d2.files = d.files
      ∧ sip.meta_resources = []
      ∧ sip.manifest.entries = []
      ∧ sip.manifest.is_valid = false
      ∧ sip.manifest.is_modified = false
      ∧ sip.log_event = Events.init d.eventlogContent := by
  exact ⟨{ d with dirExists := true }, _, rfl, rfl, rfl, rfl, rfl, rfl, rfl, rfl⟩

/-- Counterexample for C4 as stated: an existing directory holding a file
is non-empty, yet create_new returns normally instead of failing with a
directory-not-empty error. -/
theorem claim_C4_counterexample :
    (⟨true, [⟨"old.txt", "x"⟩], none⟩ : DirState).dirExists = true
    ∧ (⟨true, [⟨"old.txt", "x"⟩], none⟩ : DirState).files ≠ []
    ∧ (Sip.create_new ⟨true, [⟨"old.txt", "x"⟩], none⟩ "uri" "661").isOk = true := by
  refine ⟨rfl, by simp, rfl⟩

/-- Overwriting the pairs keyed k does not disturb the lookup of another
key. -/
theorem dictGet_map_overwrite_ne (k v k2 : String) (hne : k2 ≠ k) :
    ∀ m : List (String × String),
      dictGet (m.map (fun p => if p.1 == k then (k, v) else p)) k2 = dictGet m k2 := by
  have hk2 : (k == k2) = false := by
    cases hb : k == k2
    · rfl
    · exact absurd (beq_iff_eq.mp hb).symm hne
  intro m
  induction m with
  | nil => rfl
  | cons a m ih =>
    cases ha : a.1 == k with
    | true =>
      have ha2 : (a.1 == k2) = false := by rw [beq_iff_eq.mp ha]; exact hk2
      simp [dictGet, ha, ha2, hk2]
      simpa using ih
    | false =>
      cases ha2 : a.1 == k2 with
      | true => simp [dictGet, ha, ha2]
      | false =>
        simp [dictGet, ha, ha2]
        simpa using ih

/-- When some pair carries key k, overwriting makes (k, v) the first match
for k. -/
theorem dictGet_map_overwrite_self (k v : String) :
    ∀ m : List (String × String), m.any (fun p => p.1 == k) = true →
      dictGet (m.map (fun p => if p.1 == k then (k, v) else p)) k = some v := by
  intro m
  induction m with
  | nil => intro h; simp at h
  | cons a m ih =>
    intro h
    cases ha : a.1 == k with
    | true => simp [dictGet, ha]
    | false =>
      have h2 : m.any (fun p => p.1 == k) = true := by
        simpa [List.any_cons, ha] using h
      simp [dictGet, ha]
      simpa using ih h2

/-- Appending (k, v) does not disturb the lookup of another key. -/
theorem dictGet_append_single_ne (k v k2 : String) (hne : k2 ≠ k) :
    ∀ m : List (String × String), dictGet (m ++ [(k, v)]) k2 = dictGet m k2 := by
  have hk2 : (k == k2) = false := by
    cases hb : k == k2
    · rfl
    · exact absurd (beq_iff_eq.mp hb).symm hne
  intro m
  induction m with
  | nil => simp [dictGet, hk2]
  | cons a m ih =>
    cases ha : a.1 == k2 with
    | true => simp [dictGet, ha]
    | false => simp [dictGet, ha, ih]

/-- When no pair carries key k, appending (k, v) makes it the match
for k. -/
theorem dictGet_append_single_self (k v : String) :
    ∀ m : List (String × String), m.any (fun p => p.1 == k) = false →
      dictGet (m ++ [(k, v)]) k = some v := by
  intro m
  induction m with
  | nil => intro _; simp [dictGet]
  | cons a m ih =>
    intro h
    have ha : (a.1 == k) = false := by
      cases hb : a.1 == k
      · rfl
      · rw [List.any_cons, hb] at h; simp at h
    have h2 : m.any (fun p => p.1 == k) = false := by
      simpa [List.any_cons, ha] using h
    simp [dictGet, ha, ih h2]

/-- dictInsert overwrites the inserted key. -/
theorem dictGet_dictInsert_self (m : List (String × String)) (k v : String) :
    dictGet (dictInsert m k v) k = some v := by
  unfold dictInsert
  cases h : m.any (fun p => p.1 == k) with
  | true => simpa using dictGet_map_overwrite_self k v m h
  | false => simpa using dictGet_append_single_self k v m h

/-- dictInsert leaves every other key unchanged. -/
theorem dictGet_dictInsert_ne (m : List (String × String)) (k v k2 : String)
    (hne : k2 ≠ k) : dictGet (dictInsert m k v) k2 = dictGet m k2 := by
  unfold dictInsert
  cases h : m.any (fun p => p.1 == k) with
  | true => simpa using dictGet_map_overwrite_ne k v k2 hne m
  | false => simpa using dictGet_append_single_ne k v k2 hne m

/-- dict.update leaves every key that the update does not mention
unchanged. -/
theorem dictGet_dictUpdate_not_mem (kvs : List (String × String)) :
    ∀ (m : List (String × String)) (k : String), (∀ p ∈ kvs, p.1 ≠ k) →
      dictGet (dictUpdate m kvs) k = dictGet m k := by
  induction kvs with
  | nil => intro m k _; rfl
  | cons a kvs ih =>
    intro m k h
    have h1 : a.1 ≠ k := h a (List.mem_cons_self a kvs)
    have h2 : ∀ p ∈ kvs, p.1 ≠ k := fun p hp => h p (List.mem_cons_of_mem a hp)
    calc dictGet (dictUpdate m (a :: kvs)) k
        = dictGet (dictUpdate (dictInsert m a.1 a.2) kvs) k := rfl
      _ = dictGet (dictInsert m a.1 a.2) k := ih (dictInsert m a.1 a.2) k h2
      _ = dictGet m k := dictGet_dictInsert_ne m a.1 a.2 k (Ne.symm h1)

/-- dict.update never removes a key: a key present before is present
after. -/
theorem dictGet_dictUpdate_isSome (kvs : List (String × String)) :
    ∀ (m : List (String × String)) (k : String), (dictGet m k).isSome = true →
      (dictGet (dictUpdate m kvs) k).isSome = true := by
  induction kvs with
  | nil => intro m k h; exact h
  | cons a kvs ih =>
    intro m k h
    refine ih (dictInsert m a.1 a.2) k ?_
    by_cases hk : k = a.1
    · rw [hk, dictGet_dictInsert_self]; rfl
    · rw [dictGet_dictInsert_ne m a.1 a.2 k hk]; exact h

/-- Updating the matched entry in place preserves lookups: the first entry
with the given filename becomes its updated version. -/
theorem findEntry_map_applyUpdate (filename : String) (kw : UpdateKwargs) :
    ∀ (l : List ManifestEntry) (e : ManifestEntry),
      findEntry l filename = some e →
      findEntry (l.map (fun x =>
          if x.filename == filename then ManifestEntry.applyUpdate x kw else x)) filename
        = some (ManifestEntry.applyUpdate e kw) := by
  intro l
  induction l with
  | nil => intro e h; simp [findEntry] at h
  | cons a l ih =>
    intro e h
    have happ : ∀ x : ManifestEntry, (ManifestEntry.applyUpdate x kw).filename = x.filename :=
      fun _ => rfl
    cases ha : a.filename == filename with
    | true =>
      have he : a = e := by simpa [findEntry, ha] using h
      subst he
      have hap : a.filename = filename := beq_iff_eq.mp ha
      simp [findEntry, hap, happ]
    | false =>
      have h2 : findEntry l filename = some e := by
        simpa [findEntry, ha] using h
      have hap : ¬ (a.filename = filename) := by
        intro hcontra; rw [hcontra] at ha; simp at ha
      simp [findEntry, hap, happ]
      simpa using ih e h2

/-- Claim C9: Manifest.update_entry fails with the KeyError naming the
filename when no entry exists for it; otherwise it succeeds, marks the
manifest modified, replaces the entry by its updated version, and the
merge into the metadata map never removes a key — keys absent from the
update keep their old values, and every key present before stays
present. -/
theorem claim_C9_update_entry (m : Manifest) (filename : String) (kw : UpdateKwargs) :
    (findEntry m.entries filename = none →
      Manifest.update_entry m filename kw = .error (RazuError.keyError filename))
    ∧ (∀ e, findEntry m.entries filename = some e →
        ∃ m2, Manifest.update_entry m filename kw = .ok m2
          ∧ m2.is_modified = true
          ∧ findEntry m2.entries filename = some (ManifestEntry.applyUpdate e kw)
          ∧ (∀ k, (∀ p ∈ kw.metadata, p.1 ≠ k) →
              dictGet (ManifestEntry.applyUpdate e kw).metadata k = dictGet e.metadata k)
          ∧ (∀ k, (dictGet e.metadata k).isSome = true →
              (dictGet (ManifestEntry.applyUpdate e kw).metadata k).isSome = true)) := by
  constructor
  · intro h
    simp [Manifest.update_entry, h]
  · intro e he
    have hsome : (findEntry m.entries filename).isNone = false := by
      rw [he]; rfl
    refine ⟨{ m with
        entries := m.entries.map (fun x =>
          if x.filename == filename then ManifestEntry.applyUpdate x kw else x),
        is_modified := true },
      by simp [Manifest.update_entry, hsome], rfl,
      findEntry_map_applyUpdate filename kw m.entries e he, ?_, ?_⟩
    · intro k hk
      exact dictGet_dictUpdate_not_mem kw.metadata e.metadata k hk
    · intro k hk
      exact dictGet_dictUpdate_isSome kw.metadata e.metadata k hk

/-- Witness for C9: both branches at concrete manifests — the missing
filename errors, and an update of entry a.txt keeps the untouched key
old with its old value. -/
theorem claim_C9_witness :
    (Manifest.update_entry ⟨[], false, false⟩ "a.txt" ⟨none, none, []⟩
      = .error (RazuError.keyError "a.txt"))
    ∧ ∃ m2,
        Manifest.update_entry ⟨[⟨"a.txt", some "h", none, [("old", "1")]⟩], false, true⟩
            "a.txt" ⟨none, none, [("new", "2")]⟩ = .ok m2
        ∧ m2.is_modified = true
        ∧ findEntry m2.entries "a.txt"
            = some (ManifestEntry.applyUpdate ⟨"a.txt", some "h", none, [("old", "1")]⟩
                ⟨none, none, [("new", "2")]⟩)
        ∧ dictGet (ManifestEntry.applyUpdate ⟨"a.txt", some "h", none, [("old", "1")]⟩
              ⟨none, none, [("new", "2")]⟩).metadata "old"
            = dictGet [("old", "1")] "old" := by
  refine ⟨(claim_C9_update_entry ⟨[], false, false⟩ "a.txt" ⟨none, none, []⟩).1 rfl, ?_⟩
  obtain ⟨m2, h1, h2, h3, h4, _⟩ :=
    (claim_C9_update_entry ⟨[⟨"a.txt", some "h", none, [("old", "1")]⟩], false, true⟩
      "a.txt" ⟨none, none, [("new", "2")]⟩).2 ⟨"a.txt", some "h", none, [("old", "1")]⟩ rfl
  exact ⟨m2, h1, h2, h3, h4 "old" (by decide)⟩

/-- Claim C2 (amended): whenever a manifest-listed file exists in the
directory with a fresh md5 that differs from the recorded hash, its
filename is recorded in the checksum_mismatch list; but a mismatch is
not fatal — when nothing is missing and nothing is extra, validate
returns the report normally instead of raising. -/
theorem claim_C2_mismatch_reported (md5 : String → String) (dirFiles : List SipFile)
    (m : Manifest) (base : String) (ignore : List String) (e : ManifestEntry) (f : SipFile)
    (he : e ∈ m.entries)
    (hf : findFile dirFiles e.filename = some f)
    (hm : (some (md5 f.content) != e.md5hash) = true) :
    e.filename ∈ Manifest.mismatch_list md5 dirFiles m
    ∧ (Manifest.missing_list dirFiles m = [] →
        Manifest.extra_list dirFiles m (ignore ++ [base]) = [] →
        Manifest.validate md5 dirFiles m base ignore
          = .ok ⟨[], Manifest.mismatch_list md5 dirFiles m, []⟩) := by
  constructor
  · exact List.mem_filterMap.mpr ⟨e, he, by simp [hf, hm]⟩
  · intro h1 h2
    simp [Manifest.validate, h1, h2]

/-- Witness for C2 at a one-file directory whose stored hash is stale. -/
theorem claim_C2_witness :
    "a.txt" ∈ Manifest.mismatch_list (fun c => c) [⟨"a.txt", "content"⟩]
        ⟨[⟨"a.txt", some "ffff", none, []⟩], false, true⟩
    ∧ (Manifest.missing_list [⟨"a.txt", "content"⟩]
          ⟨[⟨"a.txt", some "ffff", none, []⟩], false, true⟩ = [] →
        Manifest.extra_list [⟨"a.txt", "content"⟩]
            ⟨[⟨"a.txt", some "ffff", none, []⟩], false, true⟩ ([] ++ ["m.json"]) = [] →
        Manifest.validate (fun c => c) [⟨"a.txt", "content"⟩]
            ⟨[⟨"a.txt", some "ffff", none, []⟩], false, true⟩ "m.json" []
          = .ok ⟨[], Manifest.mismatch_list (fun c => c) [⟨"a.txt", "content"⟩]
              ⟨[⟨"a.txt", some "ffff", none, []⟩], false, true⟩, []⟩) :=
  claim_C2_mismatch_reported (fun c => c) [⟨"a.txt", "content"⟩]
    ⟨[⟨"a.txt", some "ffff", none, []⟩], false, true⟩ "m.json" []
    ⟨"a.txt", some "ffff", none, []⟩ ⟨"a.txt", "content"⟩
    (by simp) rfl rfl

/-- Counterexample for C2 as stated: with one listed file present whose
hash differs, nothing missing and nothing extra, validate returns the
report normally — the filename is in checksum_mismatch, yet no error is
raised. -/
theorem claim_C2_counterexample :
    Manifest.validate (fun c => c) [⟨"a.txt", "content"⟩]
        ⟨[⟨"a.txt", some "ffff", none, []⟩], false, true⟩ "m.json" []
      = .ok ⟨[], ["a.txt"], []⟩ := rfl

/-- Claim C6 (amended): in the extra-files comparison only the manifest's
own filename is implicitly ignored — it never appears in extra_files —
while every other directory file without an entry, the event-log file
included, is reported as extra unless the caller lists it explicitly in
ignoreFiles. -/
theorem claim_C6_only_manifest_ignored (dirFiles : List SipFile) (m : Manifest)
    (base : String) (ignore : List String) (f : SipFile) :
    base ∉ Manifest.extra_list dirFiles m (ignore ++ [base])
    ∧ (f ∈ dirFiles → containsStr ignore f.name = false → f.name ≠ base →
        (findEntry m.entries f.name).isNone = true →
        f.name ∈ Manifest.extra_list dirFiles m (ignore ++ [base])) := by
  have hcontains : ∀ (l1 l2 : List String) (x : String),
      containsStr (l1 ++ l2) x = (containsStr l1 x || containsStr l2 x) := by
    intro l1 l2 x
    induction l1 with
    | nil => simp [containsStr]
    | cons a l1 ih => simp [containsStr, ih, Bool.or_assoc]
  constructor
  · intro hmem
    obtain ⟨g, hg, hgname⟩ := List.mem_map.mp hmem
    have hfil := List.mem_filter.mp hg
    have hpred := hfil.2
    rw [hcontains] at hpred
    have : containsStr [base] g.name = false := by
      cases hb : containsStr [base] g.name
      · rfl
      · exfalso
        rw [hb] at hpred
        simp at hpred
    rw [hgname] at this
    simp [containsStr] at this
  · intro hmem hign hne hnone
    refine List.mem_map.mpr ⟨f, List.mem_filter.mpr ⟨hmem, ?_⟩, rfl⟩
    rw [hcontains, hign]
    have hb : containsStr [base] f.name = false := by
      simp [containsStr]
      intro hcontra
      exact absurd hcontra.symm hne
    rw [hb]
    simpa using hnone

/-- Witness for C6: with the event log file present, no entry for it and
no caller ignore list, the manifest filename is not reported but the
event-log filename is in extra_files. -/
theorem claim_C6_witness :
    "NL-WbDRAZU-G0321-661.manifest.json"
      ∉ Manifest.extra_list [⟨"NL-WbDRAZU-G0321-661.eventlog.json", "x"⟩] ⟨[], false, false⟩
          ([] ++ ["NL-WbDRAZU-G0321-661.manifest.json"])
    ∧ ("NL-WbDRAZU-G0321-661.eventlog.json"
        ∈ Manifest.extra_list [⟨"NL-WbDRAZU-G0321-661.eventlog.json", "x"⟩] ⟨[], false, false⟩
            ([] ++ ["NL-WbDRAZU-G0321-661.manifest.json"])) := by
  have h := claim_C6_only_manifest_ignored
    [⟨"NL-WbDRAZU-G0321-661.eventlog.json", "x"⟩] ⟨[], false, false⟩
    "NL-WbDRAZU-G0321-661.manifest.json" []
    ⟨"NL-WbDRAZU-G0321-661.eventlog.json", "x"⟩
  exact ⟨h.1, h.2 (by simp) rfl (by decide) rfl⟩

/-- Counterexample for C6 as stated: a directory holding only the
event-log file, with an empty manifest and no caller ignore list, makes
validate raise the extra-files error naming the event-log file — it is
not implicitly ignored. -/
theorem claim_C6_counterexample :
    Manifest.validate (fun c => c) [⟨"NL-WbDRAZU-G0321-661.eventlog.json", "x"⟩]
        ⟨[], false, false⟩ "NL-WbDRAZU-G0321-661.manifest.json" []
      = .error (RazuError.extraFiles ["NL-WbDRAZU-G0321-661.eventlog.json"]) := rfl

/-- A positive number of metadata_modification appends on a locked log
raises the locked error at the first append. -/
theorem addMemEvents_locked (lg : Events) (hl : Events.is_locked lg = true) :
    ∀ n, n ≠ 0 → Events.addMemEvents lg n = .error RazuError.locked := by
  intro n hn
  cases n with
  | zero => exact absurd rfl hn
  | succ k =>
    simp [Events.addMemEvents, Events.metadata_modification, Events.add, hl]

/-- Claim C1 (amended): with the derived lock predicate, the lock is
terminal — on a locked package create_meta_resource, lock and every
event append fail with the locked error, store_metadata_resource fails
whenever the resource has pending changes to write, and
store_referenced_file_if_missing fails whenever it would actually copy
a referenced file in (the two store operations return silently, without
mutating, when they have nothing to write); a log loaded from a file
containing an ingestion_end record at any position is locked; and a
successful lock leaves the package locked. -/
theorem claim_C1_lock_terminal :
    (∀ (s : Sip), Sip.is_locked s = true →
      (∀ id, Sip.create_meta_resource s id = .error RazuError.locked)
      ∧ Sip.lock s = .error RazuError.locked
      ∧ (∀ t, Events.add s.log_event t = .error RazuError.locked)
      ∧ (∀ r : MetaResource, r.save_writes = true →
          Sip.store_metadata_resource s r = .error RazuError.locked)
      ∧ (∀ r : MetaResource, r.has_referenced_file = true →
          Sip.store_referenced_file_if_missing s r false = .error RazuError.locked))
    ∧ (∀ (content : List Event) (e : Event), e ∈ content → e.etype = EType.ine →
        Events.is_locked (Events.init (some content)) = true)
    ∧ (∀ (s s2 : Sip), Sip.lock s = .ok s2 → Sip.is_locked s2 = true) := by
  refine ⟨?_, ?_, ?_⟩
  · intro s h
    have hl : Events.is_locked s.log_event = true := h
    refine ⟨fun id => by simp [Sip.create_meta_resource, Sip.is_locked, hl],
      by simp [Sip.lock, Sip.is_locked, hl],
      fun t => by simp [Events.add, hl], ?_, ?_⟩
    · intro r hr
      cases hsrc : r.metadata_sources with
      | nil =>
        have hadd := addMemEvents_locked s.log_event hl 1 one_ne_zero
        simp [Sip.store_metadata_resource, hr, hsrc, hadd]
      | cons a l =>
        have hadd := addMemEvents_locked s.log_event hl (l.length + 1) (Nat.succ_ne_zero _)
        simp [Sip.store_metadata_resource, hr, hsrc, hadd]
    · intro r hr
      simp [Sip.store_referenced_file_if_missing, hr,
        Events.filename_change, Events.add, hl]
  · intro content e he ht
    simp only [Events.is_locked, Events.init, List.any_eq_true]
    exact ⟨e, he, by simp [ht]⟩
  · intro s s2 hlk
    unfold Sip.lock at hlk
    cases h : Sip.is_locked s with
    | true => simp [h] at hlk
    | false =>
      have hl : Events.is_locked s.log_event = false := h
      rw [h] at hlk
      simp only [Bool.false_eq_true, if_false] at hlk
      unfold Events.ingestion_end Events.add at hlk
      rw [hl] at hlk
      simp only [Bool.false_eq_true, if_false, Except.ok.injEq] at hlk
      rw [← hlk]
      simp [Sip.is_locked, Events.is_locked, List.any_append]

/-- Witness for C1 at a locked package: create_meta_resource fails with
the locked error, and the log loaded from a one-record ingestion_end
file is locked. -/
theorem claim_C1_witness :
    Sip.create_meta_resource exampleLockedSip "7" = .error RazuError.locked
    ∧ Events.is_locked (Events.init (some [⟨1, EType.ine⟩])) = true :=
  ⟨(claim_C1_lock_terminal.1 exampleLockedSip (by decide)).1 "7",
    claim_C1_lock_terminal.2.1 [⟨1, EType.ine⟩] ⟨1, EType.ine⟩ (by decide) rfl⟩

/-- Counterexample for C1 as stated: on a locked package,
store_metadata_resource with a resource whose save() reports no pending
changes returns normally — the call does not fail with the locked
error, because store_metadata_resource carries no unless_locked guard
and only trips over the lock when it actually appends an event. -/
theorem claim_C1_counterexample :
    Sip.is_locked exampleLockedSip = true
    ∧ Sip.store_metadata_resource exampleLockedSip exampleCleanResource
        = .ok exampleLockedSip := ⟨rfl, rfl⟩

/-- Elements of a rank-constant list are pairwise rank-monotone. -/
theorem pairwise_rank_of_const (l : List SaveAction) (k : Nat)
    (h : ∀ x ∈ l, SaveAction.rank x = k) :
    l.Pairwise (fun a b => SaveAction.rank a ≤ SaveAction.rank b) := by
  induction l with
  | nil => exact List.Pairwise.nil
  | cons a l ih =>
    refine List.Pairwise.cons ?_ (ih (fun x hx => h x (List.mem_cons_of_mem a hx)))
    intro b hb
    rw [h a (List.mem_cons_self a l), h b (List.mem_cons_of_mem a hb)]

/-- The save trace of Sip.save is sorted by rank: resource stores come
first, then referenced-file copies, then the queued events, then the
event-log write, and the manifest write last. -/
theorem sipSaveTrace_rank_sorted (resourceIds refIds : List String)
    (hasResourcesDir : Bool) (queueLen : Nat) :
    (sipSaveTrace resourceIds refIds hasResourcesDir queueLen).Pairwise
      (fun a b => SaveAction.rank a ≤ SaveAction.rank b) := by
  have h0 : ∀ x ∈ resourceIds.map SaveAction.storeResource, SaveAction.rank x = 0 := by
    intro x hx
    obtain ⟨y, _, rfl⟩ := List.mem_map.mp hx
    rfl
  have h1 : ∀ x ∈ (if hasResourcesDir then refIds.map SaveAction.copyReferencedFile else []),
      SaveAction.rank x = 1 := by
    intro x hx
    cases hasResourcesDir with
    | true =>
      obtain ⟨y, _, rfl⟩ := List.mem_map.mp (by simpa using hx)
      rfl
    | false => simp at hx
  have h2 : ∀ x ∈ (List.range queueLen).map SaveAction.applyQueuedEvent,
      SaveAction.rank x = 2 := by
    intro x hx
    obtain ⟨y, _, rfl⟩ := List.mem_map.mp hx
    rfl
  unfold sipSaveTrace
  rw [List.pairwise_append]
  refine ⟨?_, ?_, ?_⟩
  · rw [List.pairwise_append]
    refine ⟨?_, ?_, ?_⟩
    · rw [List.pairwise_append]
      refine ⟨pairwise_rank_of_const _ 0 h0, pairwise_rank_of_const _ 1 h1, ?_⟩
      · intro a ha b hb
        rw [h0 a ha, h1 b hb]
        omega
    · exact pairwise_rank_of_const _ 2 h2
    · intro a ha b hb
      rw [h2 b hb]
      rcases List.mem_append.mp ha with h | h
      · rw [h0 a h]; omega
      · rw [h1 a h]; omega
  · refine List.Pairwise.cons ?_ (List.pairwise_singleton _ _)
    intro b hb
    rw [List.mem_singleton.mp hb]
    exact Nat.le_of_lt (by decide)
  · intro a ha b hb
    have hrb : 3 ≤ SaveAction.rank b := by
      rcases List.mem_cons.mp hb with h | h
      · rw [h]; decide
      · rw [List.mem_singleton.mp h]; decide
    have hra : SaveAction.rank a ≤ 2 := by
      rcases List.mem_append.mp ha with h | h
      · rcases List.mem_append.mp h with h2 | h2
        · rw [h0 a h2]; omega
        · rw [h1 a h2]; omega
      · rw [h2 a h]
    omega

/-- Claim C8 (amended): Sip.save performs its side effects in a fixed
order — every resource store precedes every referenced-file copy,
which precedes every queued-event application, which precedes the
event-log write, which precedes the manifest write (so both index files
are written only after every file they describe exists): whenever one
step of the trace has strictly smaller rank than another, it occurs
strictly earlier. Note the source saves the EventLog before the
Manifest, not the other way round. -/
theorem claim_C8_save_order (resourceIds refIds : List String)
    (hasResourcesDir : Bool) (queueLen : Nat) (i j : Nat)
    (hi : i < (sipSaveTrace resourceIds refIds hasResourcesDir queueLen).length)
    (hj : j < (sipSaveTrace resourceIds refIds hasResourcesDir queueLen).length)
    (hrank : SaveAction.rank ((sipSaveTrace resourceIds refIds hasResourcesDir queueLen).get
          ⟨i, hi⟩)
        < SaveAction.rank ((sipSaveTrace resourceIds refIds hasResourcesDir queueLen).get
          ⟨j, hj⟩)) :
    i < j := by
  by_contra hc
  have hji : j ≤ i := Nat.le_of_not_lt hc
  have hp := sipSaveTrace_rank_sorted resourceIds refIds hasResourcesDir queueLen
  rw [List.pairwise_iff_get] at hp
  cases Nat.lt_or_ge j i with
  | inl hlt =>
    have := hp ⟨j, hj⟩ ⟨i, hi⟩ hlt
    omega
  | inr hge =>
    have hij : i = j := Nat.le_antisymm hge hji
    subst hij
    have : (sipSaveTrace resourceIds refIds hasResourcesDir queueLen).get ⟨i, hi⟩
        = (sipSaveTrace resourceIds refIds hasResourcesDir queueLen).get ⟨i, hj⟩ := rfl
    rw [this] at hrank
    omega

/-- Witness for C8: in the trace of a package with one resource, no
referenced files and an empty queue, the event-log write (position 1)
precedes the manifest write (position 2). -/
theorem claim_C8_witness :
    SaveAction.rank ((sipSaveTrace ["1"] [] false 0).get ⟨1, by decide⟩)
      < SaveAction.rank ((sipSaveTrace ["1"] [] false 0).get ⟨2, by decide⟩)
    ∧ 1 < 2 :=
  ⟨by decide, claim_C8_save_order ["1"] [] false 0 1 2 (by decide) (by decide) (by decide)⟩

/-- Counterexample for C8 as stated: the claim puts the Manifest write
before the EventLog write, but in the trace the event-log write comes
first — its index is 1 and the manifest write's index is 2. -/
theorem claim_C8_counterexample :
    sipSaveTrace ["1"] [] false 0
      = [SaveAction.storeResource "1", SaveAction.writeEventlog, SaveAction.writeManifest]
    ∧ List.indexOf SaveAction.writeEventlog (sipSaveTrace ["1"] [] false 0) = 1
    ∧ List.indexOf SaveAction.writeManifest (sipSaveTrace ["1"] [] false 0) = 2 := by
  refine ⟨rfl, ?_, ?_⟩ <;> decide

/-- A character comparison is false when the characters differ. -/
theorem charBeqFalse {x y : Char} (h : x ≠ y) : (x == y) = false := by
  cases hb : x == y
  · rfl
  · exact absurd (beq_iff_eq.mp hb) h

/-- pyFindIdx misses a list without matches. -/
theorem pyFindIdx_none (p : Char → Bool) :
    ∀ l : List Char, (∀ y ∈ l, p y = false) → pyFindIdx p l = none := by
  intro l
  induction l with
  | nil => intro _; rfl
  | cons x l ih =>
    intro h
    have hx : p x = false := h x (List.mem_cons_self x l)
    simp [pyFindIdx, hx, ih (fun y hy => h y (List.mem_cons_of_mem x hy))]

/-- pyFindIdx finds the first match right after an unmatched block. -/
theorem pyFindIdx_append_first (p : Char → Bool) (x : Char) (r : List Char) :
    ∀ l : List Char, (∀ y ∈ l, p y = false) → p x = true →
      pyFindIdx p (l ++ x :: r) = some l.length := by
  intro l
  induction l with
  | nil => intro _ hx; simp [pyFindIdx, hx]
  | cons z l ih =>
    intro h hx
    have hz : p z = false := h z (List.mem_cons_self z l)
    simp [pyFindIdx, hz, ih (fun y hy => h y (List.mem_cons_of_mem z hy)) hx]

/-- Every list is a prefix of itself followed by anything. -/
theorem isPrefixOf_self_append : ∀ (t r : List Char), List.isPrefixOf t (t ++ r) = true := by
  intro t r
  induction t with
  | nil => simp [List.isPrefixOf]
  | cons x t ih => simp [List.isPrefixOf, ih]

/-- str.find locates a leading occurrence at index 0. -/
theorem pyFindSub_self_append (t r : List Char) : pyFindSub (t ++ r) t = some 0 := by
  unfold pyFindSub
  rw [isPrefixOf_self_append]
  simp

/-- pyFindChar finds the dash that ends the block mid when the suffix at
start is mid followed by the separator. -/
theorem pyFindChar_block (g : List Char) (sep : Char) (start : Nat) (mid rest : List Char)
    (hdrop : g.drop start = mid ++ sep :: rest)
    (hmid : ∀ y ∈ mid, y ≠ sep) :
    pyFindChar g sep start = some (start + mid.length) := by
  unfold pyFindChar
  rw [hdrop, pyFindIdx_append_first (fun x => x == sep) sep rest mid
    (fun y hy => charBeqFalse (hmid y hy)) (by simp)]

/-- pyFindChar misses when the suffix at start has no occurrence. -/
theorem pyFindChar_miss (g : List Char) (sep : Char) (start : Nat) (mid : List Char)
    (hdrop : g.drop start = mid)
    (hmid : ∀ y ∈ mid, y ≠ sep) :
    pyFindChar g sep start = none := by
  unfold pyFindChar
  rw [hdrop, pyFindIdx_none (fun x => x == sep) mid
    (fun y hy => charBeqFalse (hmid y hy))]

/-- Claim C7: identifier round-trip — for every valid object id (no dash
and no dot, like the creator and archive ids), extracting the id back
out of the metadata filename built for it returns exactly the original
id. -/
theorem claim_C7_roundtrip (fid c a id suffix ext : List Char)
    (hfd : '.' ∉ fid) (hcd : '.' ∉ c) (hch : '-' ∉ c)
    (had : '.' ∉ a) (hah : '-' ∉ a) (hid : '.' ∉ id) (hih : '-' ∉ id) :
    extract_id_from_filename fid (make_filename_from_id fid c a id suffix ext) = .ok id := by
  have hsplit : make_filename_from_id fid c a id suffix ext
      = (fid ++ '-' :: (c ++ '-' :: (a ++ '-' :: id))) ++ '.' :: (suffix ++ '.' :: ext) := by
    simp [make_filename_from_id, filenamePrefixChars]
  have hyne : ∀ y ∈ fid ++ '-' :: (c ++ '-' :: (a ++ '-' :: id)), y ≠ '.' := by
    intro y hy
    simp only [List.mem_append, List.mem_cons] at hy
    rcases hy with h | h | h | h | h | h | h
    · exact fun hEq => hfd (hEq ▸ h)
    · subst h; decide
    · exact fun hEq => hcd (hEq ▸ h)
    · subst h; decide
    · exact fun hEq => had (hEq ▸ h)
    · subst h; decide
    · exact fun hEq => hid (hEq ▸ h)
  have hfindDot : pyFindIdx (fun ch => ch == '.') (make_filename_from_id fid c a id suffix ext)
      = some (fid ++ '-' :: (c ++ '-' :: (a ++ '-' :: id))).length := by
    rw [hsplit]
    exact pyFindIdx_append_first _ '.' _ _
      (fun y hy => charBeqFalse (hyne y hy)) (by simp)
  have hwe : filename_without_extensions (make_filename_from_id fid c a id suffix ext)
      = fid ++ '-' :: (c ++ '-' :: (a ++ '-' :: id)) := by
    unfold filename_without_extensions
    rw [hfindDot, hsplit]
    exact List.take_left _ _
  have hdrop0 : (fid ++ '-' :: (c ++ '-' :: (a ++ '-' :: id))).drop (fid.length + 1)
      = c ++ '-' :: (a ++ '-' :: id) := by
    have hform : fid ++ '-' :: (c ++ '-' :: (a ++ '-' :: id))
        = (fid ++ ['-']) ++ (c ++ '-' :: (a ++ '-' :: id)) := by simp
    rw [hform, show fid.length + 1 = (fid ++ ['-']).length by simp]
    exact List.drop_left _ _
  have hdrop1 : (fid ++ '-' :: (c ++ '-' :: (a ++ '-' :: id))).drop
        (fid.length + 1 + c.length + 1) = a ++ '-' :: id := by
    have hform : fid ++ '-' :: (c ++ '-' :: (a ++ '-' :: id))
        = ((fid ++ ['-']) ++ (c ++ ['-'])) ++ (a ++ '-' :: id) := by simp
    rw [hform, show fid.length + 1 + c.length + 1 = ((fid ++ ['-']) ++ (c ++ ['-'])).length by
      simp; omega]
    exact List.drop_left _ _
  have hdrop2 : (fid ++ '-' :: (c ++ '-' :: (a ++ '-' :: id))).drop
        (fid.length + 1 + c.length + 1 + a.length + 1) = id := by
    have hform : fid ++ '-' :: (c ++ '-' :: (a ++ '-' :: id))
        = (((fid ++ ['-']) ++ (c ++ ['-'])) ++ (a ++ ['-'])) ++ id := by simp
    rw [hform, show fid.length + 1 + c.length + 1 + a.length + 1
        = (((fid ++ ['-']) ++ (c ++ ['-'])) ++ (a ++ ['-'])).length by simp; omega]
    exact List.drop_left _ _
  have hfc0 : pyFindChar (fid ++ '-' :: (c ++ '-' :: (a ++ '-' :: id))) '-' (fid.length + 1)
      = some (fid.length + 1 + c.length) :=
    pyFindChar_block _ '-' _ c (a ++ '-' :: id) hdrop0
      (fun y hy => fun hEq => hch (hEq ▸ hy))
  have hfc1 : pyFindChar (fid ++ '-' :: (c ++ '-' :: (a ++ '-' :: id))) '-'
        (fid.length + 1 + c.length + 1)
      = some (fid.length + 1 + c.length + 1 + a.length) :=
    pyFindChar_block _ '-' _ a id hdrop1
      (fun y hy => fun hEq => hah (hEq ▸ hy))
  have hfcEnd : pyFindChar (fid ++ '-' :: (c ++ '-' :: (a ++ '-' :: id))) '-'
        (fid.length + 1 + c.length + 1 + a.length + 1) = none :=
    pyFindChar_miss _ '-' _ id hdrop2
      (fun y hy => fun hEq => hih (hEq ▸ hy))
  have hsub : pyFindSub (fid ++ '-' :: (c ++ '-' :: (a ++ '-' :: id))) fid = some 0 := by
    have hform : fid ++ '-' :: (c ++ '-' :: (a ++ '-' :: id))
        = fid ++ ('-' :: (c ++ '-' :: (a ++ '-' :: id))) := rfl
    rw [hform]
    exact pyFindSub_self_append fid _
  have hstep2 : skipDashParts (fid ++ '-' :: (c ++ '-' :: (a ++ '-' :: id)))
        (fid.length + 1) 2
      = skipDashParts (fid ++ '-' :: (c ++ '-' :: (a ++ '-' :: id)))
        (fid.length + 1 + c.length + 1) 1 := by
    show (match pyFindChar (fid ++ '-' :: (c ++ '-' :: (a ++ '-' :: id))) '-'
          (fid.length + 1) with
      | none => Except.error "part not found in the filename"
      | some j => skipDashParts (fid ++ '-' :: (c ++ '-' :: (a ++ '-' :: id))) (j + 1) 1) = _
    rw [hfc0]
  have hstep1 : skipDashParts (fid ++ '-' :: (c ++ '-' :: (a ++ '-' :: id)))
        (fid.length + 1 + c.length + 1) 1
      = skipDashParts (fid ++ '-' :: (c ++ '-' :: (a ++ '-' :: id)))
        (fid.length + 1 + c.length + 1 + a.length + 1) 0 := by
    show (match pyFindChar (fid ++ '-' :: (c ++ '-' :: (a ++ '-' :: id))) '-'
          (fid.length + 1 + c.length + 1) with
      | none => Except.error "part not found in the filename"
      | some j => skipDashParts (fid ++ '-' :: (c ++ '-' :: (a ++ '-' :: id))) (j + 1) 0) = _
    rw [hfc1]
  have hskip : skipDashParts (fid ++ '-' :: (c ++ '-' :: (a ++ '-' :: id)))
        (fid.length + 1) 2
      = .ok (fid.length + 1 + c.length + 1 + a.length + 1) := by
    rw [hstep2, hstep1]
    rfl
  unfold extract_id_from_filename
  rw [hwe]
  unfold extract_part_from_filename
  rw [hsub]
  simp only [Nat.zero_add]
  rw [hskip]
  simp only []
  rw [hfcEnd]
  simp only []
  rw [hdrop2]

/-- Witness for C7 at the test suite's example identifiers. -/
theorem claim_C7_witness :
    extract_id_from_filename "NL-WbDRAZU".toList
        (make_filename_from_id "NL-WbDRAZU".toList "G0321".toList "661".toList "42".toList
          "meta".toList "json".toList)
      = .ok "42".toList :=
  claim_C7_roundtrip "NL-WbDRAZU".toList "G0321".toList "661".toList "42".toList
    "meta".toList "json".toList (by decide) (by decide) (by decide) (by decide) (by decide)
    (by decide) (by decide)

end Razu
